import Mathlib

/-!
Verification of the hostport-operator port allocation engine.

This file is a shallow embedding of `internal/allocator/allocator.go`:
the per-node conflict map, the state reconciler `syncNodeState`, the
linear scan `findFreePort`, the per-request policy dispatch, and the
batch entry point `Allocate`.  Go `int32` arithmetic is modelled as
`Int` with explicit wraparound (`wrap32`) at every operation the Go
code performs on `int32` values.  The Kubernetes client's namespace
scoped pod listing is modelled by passing the list of pods that the
`List` call would return.  Maps are modelled as functions (a nil Go
map reads as empty, and creating an entry on write matches a total
function update).
-/

namespace HostPort

/-- Signed 32-bit wraparound, the semantics of Go `int32` arithmetic
and of the Go conversion `int32(x)`. -/
def wrap32 (x : Int) : Int := (x + 2147483648) % 4294967296 - 2147483648

/-- Value of a digit string, most significant digit first. -/
def digitsVal (ds : List Char) : Nat :=
  ds.foldl (fun acc c => acc * 10 + (c.toNat - 48)) 0

/-- Go `strconv.Atoi`: an optional sign followed by at least one
decimal digit, rejected when the value is outside the `int64` range
(the allocator only uses the `err == nil` results). -/
def atoi (s : String) : Option Int :=
  let sd : Int × List Char :=
    match s.data with
    | '-' :: rest => (-1, rest)
    | '+' :: rest => (1, rest)
    | cs => (1, cs)
  if sd.2.isEmpty then none
  else if sd.2.all Char.isDigit then
    let v : Int := sd.1 * (digitsVal sd.2 : Int)
    if -9223372036854775808 ≤ v ∧ v ≤ 9223372036854775807 then some v else none
  else none

/-- Go `strings.CutPrefix`, on the character lists of the strings. -/
def cutPref (pre s : String) : Option String :=
  if pre.data.isPrefixOf s.data then some (String.mk (s.data.drop pre.data.length))
  else none

/-- The `PortPolicy` constants; `PortPolicy` is a Go string type, so an
arbitrary string is a legal (unsupported) policy. -/
def PolicyDynamic : String := "Dynamic"

/-- Static policy constant. -/
def PolicyStatic : String := "Static"

/-- Passthrough policy constant. -/
def PolicyPassthrough : String := "Passthrough"

/-- Index policy constant. -/
def PolicyIndex : String := "Index"

/-- `allocator.PortRequest`: one port request of a batch.  Ports are Go
`int32` values, and `corev1.Protocol` is a string type. -/
structure PortRequest where
  name : String
  containerPort : Int
  hostPort : Int
  protocol : String
  policy : String
deriving Repr, DecidableEq

/-- One `corev1.ContainerPort` entry of a pod spec, restricted to the
fields the allocator reads (`HostPort`, `Protocol`). -/
structure PodPort where
  hostPort : Int
  protocol : String
deriving Repr, DecidableEq

/-- One container of a pod spec, restricted to its port list. -/
structure Container where
  ports : List PodPort
deriving Repr, DecidableEq

/-- A pod as the allocator sees it: name, node placement (empty when
unscheduled), whether `DeletionTimestamp != nil`, its annotations
(association list standing for the Go string map), and its containers. -/
structure Pod where
  name : String
  nodeName : String
  terminating : Bool
  annotations : List (String × String)
  containers : List Container
deriving Repr, DecidableEq

/-- The allocator's conflict map `allocated map[string]map[int32]bool`:
key `nodeName/protocol`, value a set of ports. -/
abbrev AllocMap := String → Int → Bool

/-- The transient sticky-port table `map[string]int32`. -/
abbrev StickyMap := String → Option Int

/-- The empty conflict map (a fresh allocator). -/
def emptyAlloc : AllocMap := fun _ _ => false

/-- The empty sticky table. -/
def emptySticky : StickyMap := fun _ => none

/-- The composite map key `nodeName + "/" + protocol`. -/
def mapKey (nodeName protocol : String) : String := nodeName ++ "/" ++ protocol

/-- `Allocator.isPortInUse`. -/
def isPortInUse (a : AllocMap) (nodeName protocol : String) (port : Int) : Bool :=
  a (mapKey nodeName protocol) port

/-- `Allocator.markUsed`: record a port as used on a node under a
protocol. -/
def markUsed (a : AllocMap) (nodeName protocol : String) (port : Int) : AllocMap :=
  fun k p => if k = mapKey nodeName protocol ∧ p = port then true else a k p

/-- Reset one key of the conflict map to an empty set, the effect of
`a.allocated[key] = make(map[int32]bool)`. -/
def clearKey (a : AllocMap) (key : String) : AllocMap :=
  fun k p => if k = key then false else a k p

/-- The clearing performed at the top of `syncNodeState` for the target
node's TCP and UDP buckets. -/
def clearNode (a : AllocMap) (nodeName : String) : AllocMap :=
  clearKey (clearKey a (mapKey nodeName "TCP")) (mapKey nodeName "UDP")

/-- Protocol defaulting: an unset protocol counts as TCP. -/
def effProto (protocol : String) : String := if protocol = "" then "TCP" else protocol

/-- The node identity used for the conflict map: the pod's node, or the
sentinel `"pending"` when the pod is unscheduled. -/
def effectiveNode (pod : Pod) : String :=
  if pod.nodeName = "" then "pending" else pod.nodeName

/-- Insert into the sticky table (Go map write, later writes win). -/
def stickyInsert (m : StickyMap) (k : String) (v : Int) : StickyMap :=
  fun s => if s = k then some v else m s

/-- Extraction of recorded prior assignments from a same-name pod's
annotations: every annotation key with the `hostport.io/allocated-`
marker whose value parses as an integer contributes a sticky entry
(the Go code stores `int32(port)`). -/
def extractSticky (m : StickyMap) (anns : List (String × String)) : StickyMap :=
  anns.foldl (fun acc kv =>
    match cutPref "hostport.io/allocated-" kv.1 with
    | some portName =>
      match atoi kv.2 with
      | some v => stickyInsert acc portName (wrap32 v)
      | none => acc
    | none => acc) m

/-- Marking of one declared container-port entry in `syncNodeState`:
non-zero host ports are recorded under the (defaulted) protocol. -/
def markPortEntry (nodeName : String) (a : AllocMap) (e : PodPort) : AllocMap :=
  if e.hostPort ≠ 0 then markUsed a nodeName (effProto e.protocol) e.hostPort else a

/-- Marking of every declared port of one pod. -/
def markPodPorts (a : AllocMap) (nodeName : String) (p : Pod) : AllocMap :=
  p.containers.foldl (fun acc c => c.ports.foldl (markPortEntry nodeName) acc) a

/-- The body of the `syncNodeState` pod loop: skip pods on other nodes,
extract sticky candidates from a same-name pod, and mark declared ports
unless the pod is the same-name pod and is terminating. -/
def syncStep (targetName nodeName : String) (st : AllocMap × StickyMap) (p : Pod) :
    AllocMap × StickyMap :=
  if nodeName ≠ "pending" ∧ p.nodeName ≠ nodeName then st
  else if p.name = targetName ∧ p.terminating = true then
    (st.1, if p.name = targetName then extractSticky st.2 p.annotations else st.2)
  else
    (markPodPorts st.1 nodeName p,
     if p.name = targetName then extractSticky st.2 p.annotations else st.2)

/-- `Allocator.syncNodeState`: clear the target node's TCP and UDP
buckets, then fold the pod loop over the namespace-scoped pod list,
producing the rebuilt conflict map and the sticky table. -/
def syncNodeState (a0 : AllocMap) (pods : List Pod) (targetName nodeName : String) :
    AllocMap × StickyMap :=
  pods.foldl (syncStep targetName nodeName) (clearNode a0 nodeName, emptySticky)

/-- Error kinds of the engine, one per distinct failure return of the
Go code (its `fmt.Errorf` messages). -/
inductive AllocError where
  | staticHostPortMissing : AllocError
  | rangeExceeded (port : Int) (portIdx : Nat) : AllocError
  | exhausted (protocol : String) (minP maxP : Int) : AllocError
  | unsupportedPolicy (policy : String) : AllocError
  | portConflict (port : Int) (protocol : String) : AllocError
deriving Repr, DecidableEq

/-- Fuel-indexed body of the `findFreePort` scan loop
`for p := min; p <= max; p++`, with the Go `int32` loop counter: the
bound `p <= max` is tested before every body and the increment wraps
(`wrap32`), so past `MaxInt32` the counter continues from `MinInt32`.
`some (some p)` is a found free port, `some none` is loop exit with no
free port, and `none` means the fuel ran out. -/
def findFreePortAux (a : AllocMap) (key : String) (maxP : Int) :
    Nat → Int → Option (Option Int)
  | 0, _ => none
  | fuel + 1, p =>
    if p > maxP then some none
    else if a key p then findFreePortAux a key maxP fuel (wrap32 (p + 1))
    else some (some p)

/-- `Allocator.findFreePort`: run the scan loop.  The `int32` counter
has at most 2^32 states and the transition is deterministic, so every
terminating run of the Go loop finishes within 2^32 bodies plus one
final bound check; the fuel 4294967297 therefore reproduces the loop
exactly on every input where it terminates.  The fuel-out case stands
for the Go loop's divergence (reachable only when every `int32` value
is marked used at the key); it is totalized with the exhaustion error
and no theorem below relies on it. -/
def findFreePort (a : AllocMap) (nodeName protocol : String) (minP maxP : Int) :
    Except AllocError Int :=
  match findFreePortAux a (mapKey nodeName protocol) maxP 4294967297 minP with
  | some (some p) => Except.ok p
  | some none => Except.error (AllocError.exhausted protocol minP maxP)
  | none => Except.error (AllocError.exhausted protocol minP maxP)

/-- The policy switch of `Allocate`, computing the candidate host port
for one request (`i` is the zero-based position of the request within
the batch). -/
def dispatchPolicy (a : AllocMap) (s : StickyMap) (nodeName : String)
    (minP maxP idx str : Int) (i : Nat) (req : PortRequest) (protocol : String) :
    Except AllocError Int :=
  if req.policy = PolicyStatic then
    if req.hostPort = 0 then Except.error AllocError.staticHostPortMissing
    else Except.ok req.hostPort
  else if req.policy = PolicyPassthrough then
    Except.ok req.containerPort
  else if req.policy = PolicyIndex then
    if wrap32 (wrap32 (minP + wrap32 (idx * str)) + wrap32 (i : Int)) > maxP then
      Except.error (AllocError.rangeExceeded
        (wrap32 (wrap32 (minP + wrap32 (idx * str)) + wrap32 (i : Int))) i)
    else Except.ok (wrap32 (wrap32 (minP + wrap32 (idx * str)) + wrap32 (i : Int)))
  else if req.policy = PolicyDynamic then
    match s req.name with
    | some prevPort =>
      if isPortInUse a nodeName protocol prevPort then
        findFreePort a nodeName protocol minP maxP
      else Except.ok prevPort
    | none => findFreePort a nodeName protocol minP maxP
  else Except.error (AllocError.unsupportedPolicy req.policy)

/-- The per-request loop of `Allocate`: dispatch the policy, run the
uniform conflict check, mark the port used, and record the assignment
(the request with `HostPort` and the defaulted `Protocol` written
back).  Any failure aborts the batch; the conflict map mutations made
so far are kept, exactly as in the Go allocator. -/
def allocatePorts (a : AllocMap) (s : StickyMap) (nodeName : String)
    (minP maxP idx str : Int) (i : Nat) :
    List PortRequest → AllocMap × Except AllocError (List PortRequest)
  | [] => (a, Except.ok [])
  | req :: rest =>
    match dispatchPolicy a s nodeName minP maxP idx str i req (effProto req.protocol) with
    | Except.error e => (a, Except.error e)
    | Except.ok port =>
      if isPortInUse a nodeName (effProto req.protocol) port then
        (a, Except.error (AllocError.portConflict port (effProto req.protocol)))
      else
        match allocatePorts (markUsed a nodeName (effProto req.protocol) port) s nodeName
            minP maxP idx str (i + 1) rest with
        | (a', Except.error e) => (a', Except.error e)
        | (a', Except.ok rs) =>
          (a', Except.ok ({ req with hostPort := port, protocol := effProto req.protocol } :: rs))

/-- `Allocator.Allocate`: rebuild the node state, then allocate the
batch.  Returns the allocator's conflict map after the call together
with the assignments or the typed error. -/
def Allocate (a0 : AllocMap) (pods : List Pod) (pod : Pod)
    (requests : List PortRequest) (minP maxP idx str : Int) :
    AllocMap × Except AllocError (List PortRequest) :=
  allocatePorts (syncNodeState a0 pods pod.name (effectiveNode pod)).1
    (syncNodeState a0 pods pod.name (effectiveNode pod)).2
    (effectiveNode pod) minP maxP idx str 0 requests

/-- The conflict-map component of one `syncNodeState` loop step, which
never depends on the sticky accumulator. -/
def syncStepA (targetName nodeName : String) (a : AllocMap) (p : Pod) : AllocMap :=
  if nodeName ≠ "pending" ∧ p.nodeName ≠ nodeName then a
  else if p.name = targetName ∧ p.terminating = true then a
  else markPodPorts a nodeName p

/-- The sticky-table component of one `syncNodeState` loop step, which
never depends on the conflict-map accumulator. -/
def syncStepS (targetName nodeName : String) (s : StickyMap) (p : Pod) : StickyMap :=
  if nodeName ≠ "pending" ∧ p.nodeName ≠ nodeName then s
  else if p.name = targetName then extractSticky s p.annotations
  else s

/-- Example target pod scheduled to node `n1`. -/
def examplePod : Pod :=
  { name := "app-0", nodeName := "n1", terminating := false,
    annotations := [], containers := [] }

/-- Example outgoing incarnation of `examplePod`: same name, marked
terminating, carrying a recorded prior assignment of port 9999 for the
request named `web`. -/
def exampleOldPod : Pod :=
  { name := "app-0", nodeName := "n1", terminating := true,
    annotations := [("hostport.io/allocated-web", "9999")], containers := [] }

/-- Example unrelated pod occupying TCP host ports 7000 and 7001 on
node `n1`. -/
def exampleBusyPod : Pod :=
  { name := "other", nodeName := "n1", terminating := false,
    annotations := [],
    containers := [{ ports := [{ hostPort := 7000, protocol := "TCP" },
      { hostPort := 7001, protocol := "TCP" }] }] }

/-- Example Dynamic request named `web`. -/
def exampleDynReq : PortRequest :=
  { name := "web", containerPort := 1000, hostPort := 0, protocol := "", policy := "Dynamic" }

/-- Second example Dynamic request. -/
def exampleDynReq2 : PortRequest :=
  { name := "rpc", containerPort := 1001, hostPort := 0, protocol := "", policy := "Dynamic" }

/-- Example Index request. -/
def exampleIdxReq (nm : String) : PortRequest :=
  { name := nm, containerPort := 1000, hostPort := 0, protocol := "", policy := "Index" }

/-- Example Static request with a declared host port. -/
def exampleStaticReq (hp : Int) : PortRequest :=
  { name := "st", containerPort := 1000, hostPort := hp, protocol := "", policy := "Static" }

/-- Example Passthrough request. -/
def examplePassReq : PortRequest :=
  { name := "pt", containerPort := 7000, hostPort := 0, protocol := "", policy := "Passthrough" }

/-- A conflict map with TCP ports 7000 and 7001 used on node `n1`. -/
def exampleBusyMap : AllocMap :=
  markUsed (markUsed emptyAlloc "n1" "TCP" 7000) "n1" "TCP" 7001

/-- Example pod occupying TCP host port 2147483647 (MaxInt32) on node
`n1`. -/
def exampleMaxPod : Pod :=
  { name := "other", nodeName := "n1", terminating := false,
    annotations := [],
    containers := [{ ports := [{ hostPort := 2147483647, protocol := "TCP" }] }] }

theorem wrap32_id {x : Int} (h1 : 0 ≤ x) (h2 : x < 2147483648) : wrap32 x = x := by
  unfold wrap32; omega

theorem wrap32_eq_self {x : Int} (h1 : -2147483648 ≤ x) (h2 : x < 2147483648) :
    wrap32 x = x := by
  unfold wrap32; omega

/-- The Index-policy port expression collapses to exact arithmetic when
every intermediate stays inside the `int32` range. -/
theorem indexPort_eq {minP idx str : Int} {i : Nat}
    (h1 : 0 ≤ minP) (h2 : 0 ≤ idx * str)
    (h3 : minP + idx * str + (i : Int) < 2147483648) :
    wrap32 (wrap32 (minP + wrap32 (idx * str)) + wrap32 (i : Int))
      = minP + idx * str + (i : Int) := by
  have hi : (0 : Int) ≤ (i : Int) := Int.ofNat_nonneg i
  rw [wrap32_id h2 (by omega)]
  rw [wrap32_id (show (0:Int) ≤ minP + idx * str by omega) (by omega)]
  rw [wrap32_id hi (by omega)]
  exact wrap32_id (by omega) h3

theorem strAppend_data (s t : String) : (s ++ t).data = s.data ++ t.data :=
  String.data_append s t

theorem mapKey_proto_inj {n p1 p2 : String} (h : mapKey n p1 = mapKey n p2) : p1 = p2 := by
  unfold mapKey at h
  have hd := congrArg String.data h
  rw [strAppend_data, strAppend_data, strAppend_data, strAppend_data] at hd
  have hd2 : p1.data = p2.data := List.append_cancel_left hd
  cases p1; cases p2; cases hd2; rfl

theorem clearNode_at (a : AllocMap) (n pr : String) (hpr : pr = "TCP" ∨ pr = "UDP")
    (q : Int) : clearNode a n (mapKey n pr) q = false := by
  unfold clearNode clearKey
  rcases hpr with h | h <;> subst h
  · rw [if_neg, if_pos rfl]
    intro hk
    have := mapKey_proto_inj hk
    simp at this
  · rw [if_pos rfl]

theorem syncStep_eq (t n : String) (st : AllocMap × StickyMap) (p : Pod) :
    syncStep t n st p = (syncStepA t n st.1 p, syncStepS t n st.2 p) := by
  unfold syncStep syncStepA syncStepS
  by_cases h1 : n ≠ "pending" ∧ p.nodeName ≠ n
  · rw [if_pos h1, if_pos h1, if_pos h1]
  · rw [if_neg h1, if_neg h1, if_neg h1]
    by_cases h2 : p.name = t ∧ p.terminating = true
    · rw [if_pos h2, if_pos h2, if_pos h2.1]
    · rw [if_neg h2, if_neg h2]

theorem sync_foldl_split (t n : String) (pods : List Pod) :
    ∀ (a : AllocMap) (s : StickyMap),
      pods.foldl (syncStep t n) (a, s)
        = (pods.foldl (syncStepA t n) a, pods.foldl (syncStepS t n) s) := by
  induction pods with
  | nil => intro a s; rfl
  | cons p rest ih =>
    intro a s
    rw [List.foldl_cons, List.foldl_cons, List.foldl_cons, syncStep_eq]
    exact ih _ _

theorem syncNodeState_eq (a0 : AllocMap) (pods : List Pod) (t n : String) :
    syncNodeState a0 pods t n
      = (pods.foldl (syncStepA t n) (clearNode a0 n),
         pods.foldl (syncStepS t n) emptySticky) := by
  unfold syncNodeState
  exact sync_foldl_split t n pods _ _

theorem foldl_congrAt {α : Type} (k : String) (step : AllocMap → α → AllocMap)
    (hstep : ∀ a b x, (∀ q, a k q = b k q) → ∀ q, step a x k q = step b x k q) :
    ∀ (l : List α) (a b : AllocMap), (∀ q, a k q = b k q) →
      ∀ q, (l.foldl step a) k q = (l.foldl step b) k q := by
  intro l
  induction l with
  | nil => intro a b h q; exact h q
  | cons x xs ih =>
    intro a b h q
    rw [List.foldl_cons, List.foldl_cons]
    exact ih _ _ (hstep a b x h) q

theorem markPortEntry_congrAt (n k : String) (a b : AllocMap) (e : PodPort)
    (h : ∀ q, a k q = b k q) : ∀ q, markPortEntry n a e k q = markPortEntry n b e k q := by
  intro q
  unfold markPortEntry markUsed
  split
  · beta_reduce
    split
    · rfl
    · exact h q
  · exact h q

theorem markPodPorts_congrAt (n k : String) (p : Pod) (a b : AllocMap)
    (h : ∀ q, a k q = b k q) : ∀ q, markPodPorts a n p k q = markPodPorts b n p k q := by
  unfold markPodPorts
  exact foldl_congrAt k _
    (fun a' b' c h' =>
      foldl_congrAt k (markPortEntry n)
        (fun a'' b'' e h'' => markPortEntry_congrAt n k a'' b'' e h'') c.ports a' b' h')
    p.containers a b h

theorem syncStepA_congrAt (t n k : String) (a b : AllocMap) (p : Pod)
    (h : ∀ q, a k q = b k q) : ∀ q, syncStepA t n a p k q = syncStepA t n b p k q := by
  intro q
  unfold syncStepA
  split
  · exact h q
  · split
    · exact h q
    · exact markPodPorts_congrAt n k p a b h q

/-- After `syncNodeState`, the contents of the target node's TCP and
UDP buckets do not depend on the conflict map the call started from:
those buckets are cleared and rebuilt from the pod list alone. -/
theorem sync_fst_congr (a0 b0 : AllocMap) (pods : List Pod) (t n pr : String)
    (hpr : pr = "TCP" ∨ pr = "UDP") :
    ∀ q, (syncNodeState a0 pods t n).1 (mapKey n pr) q
        = (syncNodeState b0 pods t n).1 (mapKey n pr) q := by
  intro q
  rw [syncNodeState_eq, syncNodeState_eq]
  refine foldl_congrAt (mapKey n pr) (syncStepA t n)
    (fun a b p h => syncStepA_congrAt t n (mapKey n pr) a b p h) pods _ _ ?_ q
  intro q'
  rw [clearNode_at a0 n pr hpr, clearNode_at b0 n pr hpr]

/-- The sticky table produced by `syncNodeState` does not depend on the
conflict map the call started from. -/
theorem sync_snd_congr (a0 b0 : AllocMap) (pods : List Pod) (t n : String) :
    (syncNodeState a0 pods t n).2 = (syncNodeState b0 pods t n).2 := by
  rw [syncNodeState_eq, syncNodeState_eq]

theorem foldl_true_elim {α : Type} (P : α → Prop) (k : String) (q : Int)
    (step : AllocMap → α → AllocMap)
    (hstep : ∀ a x, step a x k q = true → a k q = true ∨ P x) :
    ∀ (l : List α) (a : AllocMap), (l.foldl step a) k q = true →
      a k q = true ∨ ∃ x ∈ l, P x := by
  intro l
  induction l with
  | nil => intro a h; exact Or.inl h
  | cons x xs ih =>
    intro a h
    rw [List.foldl_cons] at h
    rcases ih (step a x) h with h' | ⟨y, hy, hP⟩
    · rcases hstep a x h' with h'' | hP
      · exact Or.inl h''
      · exact Or.inr ⟨x, List.mem_cons_self x xs, hP⟩
    · exact Or.inr ⟨y, List.mem_cons_of_mem x hy, hP⟩

theorem markPortEntry_true_elim (n : String) (a : AllocMap) (e : PodPort) (k : String)
    (q : Int) (h : markPortEntry n a e k q = true) :
    a k q = true ∨ (e.hostPort ≠ 0 ∧ e.hostPort = q) := by
  unfold markPortEntry markUsed at h
  by_cases h0 : e.hostPort ≠ 0
  · rw [if_pos h0] at h
    by_cases hc : k = mapKey n (effProto e.protocol) ∧ q = e.hostPort
    · exact Or.inr ⟨h0, hc.2.symm⟩
    · rw [if_neg hc] at h
      exact Or.inl h
  · rw [if_neg h0] at h
    exact Or.inl h

theorem markPodPorts_true_elim (a : AllocMap) (n : String) (p : Pod) (k : String)
    (q : Int) (h : markPodPorts a n p k q = true) :
    a k q = true ∨ ∃ c ∈ p.containers, ∃ e ∈ c.ports, e.hostPort ≠ 0 ∧ e.hostPort = q := by
  unfold markPodPorts at h
  refine foldl_true_elim (fun c => ∃ e ∈ c.ports, e.hostPort ≠ 0 ∧ e.hostPort = q) k q _
    ?_ p.containers a h
  intro acc c hc
  exact foldl_true_elim (fun e => e.hostPort ≠ 0 ∧ e.hostPort = q) k q
    (markPortEntry n) (fun a' e h' => markPortEntry_true_elim n a' e k q h') c.ports acc hc

theorem syncStepA_true_elim (t n : String) (a : AllocMap) (p : Pod) (k : String)
    (q : Int) (h : syncStepA t n a p k q = true) :
    a k q = true ∨ ∃ c ∈ p.containers, ∃ e ∈ c.ports, e.hostPort ≠ 0 ∧ e.hostPort = q := by
  unfold syncStepA at h
  split at h
  · exact Or.inl h
  · split at h
    · exact Or.inl h
    · exact markPodPorts_true_elim a n p k q h

/-- Every port recorded in the target node's TCP or UDP bucket after a
reconciliation is a non-zero host port declared by some pod of the
scanned list. -/
theorem sync_fst_true_elim (a0 : AllocMap) (pods : List Pod) (t n pr : String)
    (q : Int) (hpr : pr = "TCP" ∨ pr = "UDP")
    (h : (syncNodeState a0 pods t n).1 (mapKey n pr) q = true) :
    ∃ p ∈ pods, ∃ c ∈ p.containers, ∃ e ∈ c.ports, e.hostPort ≠ 0 ∧ e.hostPort = q := by
  rw [syncNodeState_eq] at h
  have helim := foldl_true_elim
    (fun p => ∃ c ∈ p.containers, ∃ e ∈ c.ports, e.hostPort ≠ 0 ∧ e.hostPort = q)
    (mapKey n pr) q (syncStepA t n)
    (fun a p h' => syncStepA_true_elim t n a p (mapKey n pr) q h') pods _ h
  rcases helim with hbase | hex
  · rw [clearNode_at a0 n pr hpr q] at hbase
    cases hbase
  · exact hex

theorem syncStepS_ne (t n : String) (s : StickyMap) (p : Pod) (hne : p.name ≠ t) :
    syncStepS t n s p = s := by
  unfold syncStepS
  by_cases h1 : n ≠ "pending" ∧ p.nodeName ≠ n
  · rw [if_pos h1]
  · rw [if_neg h1, if_neg hne]

theorem sync_snd_others (t n : String) (others : List Pod)
    (h : ∀ q ∈ others, q.name ≠ t) :
    ∀ s : StickyMap, others.foldl (syncStepS t n) s = s := by
  induction others with
  | nil => intro s; rfl
  | cons p rest ih =>
    intro s
    rw [List.foldl_cons, syncStepS_ne t n s p (h p (List.mem_cons_self p rest))]
    exact ih (fun q hq => h q (List.mem_cons_of_mem p hq)) s

/-- Sticky extraction: when the only pod sharing the target's name is a
trailing same-name pod visible to the scan, the sticky table is exactly
the table extracted from its annotations. -/
theorem sync_snd_append_old (a0 : AllocMap) (others : List Pod) (old : Pod)
    (t n : String) (hname : old.name = t)
    (hnode : n = "pending" ∨ old.nodeName = n)
    (hothers : ∀ q ∈ others, q.name ≠ t) :
    (syncNodeState a0 (others ++ [old]) t n).2
      = extractSticky emptySticky old.annotations := by
  rw [syncNodeState_eq]
  show List.foldl (syncStepS t n) emptySticky (others ++ [old])
      = extractSticky emptySticky old.annotations
  rw [List.foldl_append, sync_snd_others t n others hothers]
  rw [List.foldl_cons, List.foldl_nil]
  unfold syncStepS
  rw [if_neg, if_pos hname]
  intro hsk
  rcases hnode with h | h
  · exact hsk.1 h
  · exact hsk.2 h

/-- The declared ports of a terminating pod that carries the target's
name are not added to the conflict map: dropping that pod from the scan
leaves the rebuilt conflict map unchanged. -/
theorem sync_fst_append_terminating (a0 : AllocMap) (others : List Pod) (old : Pod)
    (t n : String) (hname : old.name = t) (hterm : old.terminating = true) :
    (syncNodeState a0 (others ++ [old]) t n).1 = (syncNodeState a0 others t n).1 := by
  rw [syncNodeState_eq, syncNodeState_eq]
  show List.foldl (syncStepA t n) (clearNode a0 n) (others ++ [old])
      = List.foldl (syncStepA t n) (clearNode a0 n) others
  rw [List.foldl_append, List.foldl_cons, List.foldl_nil]
  unfold syncStepA
  split
  · rfl
  · rw [if_pos ⟨hname, hterm⟩]

/-- While the counter cannot wrap — the range top is at most
`MaxInt32 - 1` and the scan starts at an `int32` value — a found port
is the least free port of `[p0, maxP]`. -/
theorem findFreePortAux_found (a : AllocMap) (key : String) (maxP : Int)
    (hmax : maxP ≤ 2147483646) :
    ∀ (fuel : Nat) (p0 p : Int), -2147483648 ≤ p0 →
      findFreePortAux a key maxP fuel p0 = some (some p) →
      a key p = false ∧ p0 ≤ p ∧ p ≤ maxP ∧
        ∀ q, p0 ≤ q → q < p → a key q = true := by
  intro fuel
  induction fuel with
  | zero => intro p0 p _ h; cases h
  | succ f ih =>
    intro p0 p hp0 h
    unfold findFreePortAux at h
    by_cases hge : p0 > maxP
    · rw [if_pos hge] at h
      injection h with h'
      cases h'
    · rw [if_neg hge] at h
      by_cases hu : a key p0 = true
      · rw [if_pos hu] at h
        rw [wrap32_eq_self (by omega) (by omega)] at h
        obtain ⟨h1, h2, h3, h4⟩ := ih (p0 + 1) p (by omega) h
        refine ⟨h1, by omega, h3, ?_⟩
        intro q hq1 hq2
        by_cases hq0 : q = p0
        · rw [hq0]; exact hu
        · exact h4 q (by omega) hq2
      · rw [if_neg hu] at h
        injection h with h'
        injection h' with h''
        subst h''
        exact ⟨by simpa using hu, le_refl _, by omega,
          fun q hq1 hq2 => absurd hq2 (by omega)⟩

/-- While the counter cannot wrap, a fully used range makes the loop
exit through its bound check, given fuel for every position plus the
final check. -/
theorem findFreePortAux_allUsed (a : AllocMap) (key : String) (maxP : Int)
    (hmax : maxP ≤ 2147483646) :
    ∀ (fuel : Nat) (p0 : Int), -2147483648 ≤ p0 →
      (∀ q, p0 ≤ q → q ≤ maxP → a key q = true) →
      maxP - p0 + 2 ≤ (fuel : Int) → 1 ≤ fuel →
      findFreePortAux a key maxP fuel p0 = some none := by
  intro fuel
  induction fuel with
  | zero => intro p0 _ _ _ h1; omega
  | succ f ih =>
    intro p0 hp0 hall hf _
    unfold findFreePortAux
    by_cases hge : p0 > maxP
    · rw [if_pos hge]
    · rw [if_neg hge, if_pos (hall p0 (le_refl p0) (by omega))]
      rw [wrap32_eq_self (by omega) (by omega)]
      exact ih (p0 + 1) (by omega) (fun q hq1 hq2 => hall q (by omega) hq2)
        (by push_cast at hf ⊢; omega) (by push_cast at hf; omega)

/-- A successful scan with the range top below `MaxInt32` (so the
`int32` counter cannot wrap) returns the least free port of the range. -/
theorem findFreePort_ok (a : AllocMap) (n pr : String) (minP maxP p : Int)
    (hmin : -2147483648 ≤ minP) (hmax : maxP ≤ 2147483646)
    (h : findFreePort a n pr minP maxP = Except.ok p) :
    minP ≤ p ∧ p ≤ maxP ∧ a (mapKey n pr) p = false ∧
      ∀ q, minP ≤ q → q < p → a (mapKey n pr) q = true := by
  unfold findFreePort at h
  cases haux : findFreePortAux a (mapKey n pr) maxP 4294967297 minP with
  | none => rw [haux] at h; cases h
  | some o =>
    cases o with
    | none => rw [haux] at h; cases h
    | some p' =>
      rw [haux] at h
      injection h with h'
      subst h'
      obtain ⟨h1, h2, h3, h4⟩ := findFreePortAux_found a (mapKey n pr) maxP hmax
        4294967297 minP p' hmin haux
      exact ⟨h2, h3, h1, h4⟩

/-- With the range top below `MaxInt32`, a fully used range ends the
scan with the exhaustion error. -/
theorem findFreePort_exhausted (a : AllocMap) (n pr : String) (minP maxP : Int)
    (hmin : -2147483648 ≤ minP) (hmax : maxP ≤ 2147483646)
    (h : ∀ q, minP ≤ q → q ≤ maxP → a (mapKey n pr) q = true) :
    findFreePort a n pr minP maxP = Except.error (AllocError.exhausted pr minP maxP) := by
  unfold findFreePort
  rw [findFreePortAux_allUsed a (mapKey n pr) maxP hmax 4294967297 minP hmin h
    (by push_cast; omega) (by omega)]

theorem markUsed_self (a : AllocMap) (n pr : String) (po : Int) :
    markUsed a n pr po (mapKey n pr) po = true := by
  unfold markUsed
  rw [if_pos ⟨rfl, rfl⟩]

theorem markUsed_true (a : AllocMap) (n pr : String) (po : Int) (k : String) (q : Int)
    (h : a k q = true) : markUsed a n pr po k q = true := by
  unfold markUsed
  split
  · rfl
  · exact h

theorem markUsed_false_elim (a : AllocMap) (n pr : String) (po : Int) (k : String)
    (q : Int) (h : markUsed a n pr po k q = false) : a k q = false := by
  unfold markUsed at h
  split at h
  · cases h
  · exact h

theorem markUsed_ne (a : AllocMap) (n pr : String) (po : Int) (k : String) (q : Int)
    (hq : q ≠ po) : markUsed a n pr po k q = a k q := by
  unfold markUsed
  rw [if_neg (fun hc => hq hc.2)]

theorem dispatch_static_eq (a : AllocMap) (s : StickyMap) (n : String)
    (minP maxP idx str : Int) (i : Nat) (req : PortRequest) (pr : String)
    (hp : req.policy = PolicyStatic) :
    dispatchPolicy a s n minP maxP idx str i req pr
      = (if req.hostPort = 0 then Except.error AllocError.staticHostPortMissing
         else Except.ok req.hostPort) := by
  unfold dispatchPolicy
  rw [hp, if_pos rfl]

theorem dispatch_passthrough_eq (a : AllocMap) (s : StickyMap) (n : String)
    (minP maxP idx str : Int) (i : Nat) (req : PortRequest) (pr : String)
    (hp : req.policy = PolicyPassthrough) :
    dispatchPolicy a s n minP maxP idx str i req pr = Except.ok req.containerPort := by
  unfold dispatchPolicy
  rw [hp, if_neg (by decide : ¬(PolicyPassthrough = PolicyStatic)), if_pos rfl]

theorem dispatch_index_eq (a : AllocMap) (s : StickyMap) (n : String)
    (minP maxP idx str : Int) (i : Nat) (req : PortRequest) (pr : String)
    (hp : req.policy = PolicyIndex) :
    dispatchPolicy a s n minP maxP idx str i req pr
      = (if wrap32 (wrap32 (minP + wrap32 (idx * str)) + wrap32 (i : Int)) > maxP then
           Except.error (AllocError.rangeExceeded
             (wrap32 (wrap32 (minP + wrap32 (idx * str)) + wrap32 (i : Int))) i)
         else Except.ok (wrap32 (wrap32 (minP + wrap32 (idx * str)) + wrap32 (i : Int)))) := by
  unfold dispatchPolicy
  rw [hp, if_neg (by decide : ¬(PolicyIndex = PolicyStatic)),
    if_neg (by decide : ¬(PolicyIndex = PolicyPassthrough)), if_pos rfl]

theorem dispatch_dynamic_eq (a : AllocMap) (s : StickyMap) (n : String)
    (minP maxP idx str : Int) (i : Nat) (req : PortRequest) (pr : String)
    (hp : req.policy = PolicyDynamic) :
    dispatchPolicy a s n minP maxP idx str i req pr
      = (match s req.name with
         | some prevPort =>
           if isPortInUse a n pr prevPort then findFreePort a n pr minP maxP
           else Except.ok prevPort
         | none => findFreePort a n pr minP maxP) := by
  unfold dispatchPolicy
  rw [hp, if_neg (by decide : ¬(PolicyDynamic = PolicyStatic)),
    if_neg (by decide : ¬(PolicyDynamic = PolicyPassthrough)),
    if_neg (by decide : ¬(PolicyDynamic = PolicyIndex)), if_pos rfl]

theorem allocatePorts_cons_eq (a : AllocMap) (s : StickyMap) (n : String)
    (minP maxP idx str : Int) (i : Nat) (req : PortRequest) (rest : List PortRequest) :
    allocatePorts a s n minP maxP idx str i (req :: rest)
      = match dispatchPolicy a s n minP maxP idx str i req (effProto req.protocol) with
        | Except.error e => (a, Except.error e)
        | Except.ok port =>
          if isPortInUse a n (effProto req.protocol) port then
            (a, Except.error (AllocError.portConflict port (effProto req.protocol)))
          else
            match allocatePorts (markUsed a n (effProto req.protocol) port) s n
                minP maxP idx str (i + 1) rest with
            | (a', Except.error e) => (a', Except.error e)
            | (a', Except.ok rs) =>
              (a', Except.ok
                ({ req with hostPort := port, protocol := effProto req.protocol } :: rs)) :=
  rfl

theorem allocatePorts_cons_error (a : AllocMap) (s : StickyMap) (n : String)
    (minP maxP idx str : Int) (i : Nat) (req : PortRequest) (rest : List PortRequest)
    (e : AllocError)
    (hd : dispatchPolicy a s n minP maxP idx str i req (effProto req.protocol)
      = Except.error e) :
    allocatePorts a s n minP maxP idx str i (req :: rest) = (a, Except.error e) := by
  rw [allocatePorts_cons_eq, hd]

theorem allocatePorts_cons_conflict (a : AllocMap) (s : StickyMap) (n : String)
    (minP maxP idx str : Int) (i : Nat) (req : PortRequest) (rest : List PortRequest)
    (port : Int)
    (hd : dispatchPolicy a s n minP maxP idx str i req (effProto req.protocol)
      = Except.ok port)
    (hu : isPortInUse a n (effProto req.protocol) port = true) :
    allocatePorts a s n minP maxP idx str i (req :: rest)
      = (a, Except.error (AllocError.portConflict port (effProto req.protocol))) := by
  rw [allocatePorts_cons_eq]
  simp only [hd]
  rw [if_pos hu]

theorem allocatePorts_cons_free (a : AllocMap) (s : StickyMap) (n : String)
    (minP maxP idx str : Int) (i : Nat) (req : PortRequest) (rest : List PortRequest)
    (port : Int)
    (hd : dispatchPolicy a s n minP maxP idx str i req (effProto req.protocol)
      = Except.ok port)
    (hu : isPortInUse a n (effProto req.protocol) port = false) :
    allocatePorts a s n minP maxP idx str i (req :: rest)
      = ((allocatePorts (markUsed a n (effProto req.protocol) port) s n
            minP maxP idx str (i + 1) rest).1,
         match (allocatePorts (markUsed a n (effProto req.protocol) port) s n
            minP maxP idx str (i + 1) rest).2 with
         | Except.error e => Except.error e
         | Except.ok rs =>
           Except.ok ({ req with hostPort := port, protocol := effProto req.protocol } :: rs)) := by
  rw [allocatePorts_cons_eq]
  simp only [hd]
  rw [if_neg (by simp [hu])]
  cases hrec : allocatePorts (markUsed a n (effProto req.protocol) port) s n
      minP maxP idx str (i + 1) rest with
  | mk a' r =>
    cases r with
    | error e => rfl
    | ok rs => rfl

theorem allocatePorts_mono (s : StickyMap) (n : String) (minP maxP idx str : Int) :
    ∀ (reqs : List PortRequest) (a : AllocMap) (i : Nat) (k : String) (q : Int),
      a k q = true → (allocatePorts a s n minP maxP idx str i reqs).1 k q = true := by
  intro reqs
  induction reqs with
  | nil => intro a i k q h; exact h
  | cons req rest ih =>
    intro a i k q h
    cases hd : dispatchPolicy a s n minP maxP idx str i req (effProto req.protocol) with
    | error e =>
      rw [allocatePorts_cons_error a s n minP maxP idx str i req rest e hd]
      exact h
    | ok port =>
      cases hu : isPortInUse a n (effProto req.protocol) port with
      | true =>
        rw [allocatePorts_cons_conflict a s n minP maxP idx str i req rest port hd hu]
        exact h
      | false =>
        rw [allocatePorts_cons_free a s n minP maxP idx str i req rest port hd hu]
        exact ih _ (i + 1) k q (markUsed_true a n (effProto req.protocol) port k q h)

/-- Every assignment returned by the per-request loop is recorded in
the final conflict map under its (defaulted) protocol. -/
theorem allocatePorts_ok_marked (s : StickyMap) (n : String) (minP maxP idx str : Int) :
    ∀ (reqs : List PortRequest) (a : AllocMap) (i : Nat) (rs : List PortRequest),
      (allocatePorts a s n minP maxP idx str i reqs).2 = Except.ok rs →
      ∀ x ∈ rs,
        (allocatePorts a s n minP maxP idx str i reqs).1 (mapKey n x.protocol) x.hostPort
          = true := by
  intro reqs
  induction reqs with
  | nil =>
    intro a i rs h x hx
    injection h with h'
    subst h'
    cases hx
  | cons req rest ih =>
    intro a i rs h x hx
    cases hd : dispatchPolicy a s n minP maxP idx str i req (effProto req.protocol) with
    | error e =>
      rw [allocatePorts_cons_error a s n minP maxP idx str i req rest e hd] at h
      cases h
    | ok port =>
      cases hu : isPortInUse a n (effProto req.protocol) port with
      | true =>
        rw [allocatePorts_cons_conflict a s n minP maxP idx str i req rest port hd hu] at h
        cases h
      | false =>
        rw [allocatePorts_cons_free a s n minP maxP idx str i req rest port hd hu] at h ⊢
        cases hrec : (allocatePorts (markUsed a n (effProto req.protocol) port) s n
            minP maxP idx str (i + 1) rest).2 with
        | error e => rw [hrec] at h; cases h
        | ok rs' =>
          rw [hrec] at h
          injection h with h'
          subst h'
          rcases List.mem_cons.mp hx with rfl | hx'
          · exact allocatePorts_mono s n minP maxP idx str rest _ (i + 1) _ _
              (markUsed_self a n (effProto req.protocol) port)
          · exact ih _ (i + 1) rs' hrec x hx'

/-- Every assignment returned by the per-request loop was free in the
conflict map the loop started from. -/
theorem allocatePorts_ok_fresh (s : StickyMap) (n : String) (minP maxP idx str : Int) :
    ∀ (reqs : List PortRequest) (a : AllocMap) (i : Nat) (rs : List PortRequest),
      (allocatePorts a s n minP maxP idx str i reqs).2 = Except.ok rs →
      ∀ x ∈ rs, a (mapKey n x.protocol) x.hostPort = false := by
  intro reqs
  induction reqs with
  | nil =>
    intro a i rs h x hx
    injection h with h'
    subst h'
    cases hx
  | cons req rest ih =>
    intro a i rs h x hx
    cases hd : dispatchPolicy a s n minP maxP idx str i req (effProto req.protocol) with
    | error e =>
      rw [allocatePorts_cons_error a s n minP maxP idx str i req rest e hd] at h
      cases h
    | ok port =>
      cases hu : isPortInUse a n (effProto req.protocol) port with
      | true =>
        rw [allocatePorts_cons_conflict a s n minP maxP idx str i req rest port hd hu] at h
        cases h
      | false =>
        rw [allocatePorts_cons_free a s n minP maxP idx str i req rest port hd hu] at h
        cases hrec : (allocatePorts (markUsed a n (effProto req.protocol) port) s n
            minP maxP idx str (i + 1) rest).2 with
        | error e => rw [hrec] at h; cases h
        | ok rs' =>
          rw [hrec] at h
          injection h with h'
          subst h'
          rcases List.mem_cons.mp hx with rfl | hx'
          · exact hu
          · exact markUsed_false_elim a n (effProto req.protocol) port _ _
              (ih _ (i + 1) rs' hrec x hx')

/-- The (hostPort, protocol) pairs assigned by one batch are pairwise
distinct. -/
theorem allocatePorts_ok_pairwise (s : StickyMap) (n : String) (minP maxP idx str : Int) :
    ∀ (reqs : List PortRequest) (a : AllocMap) (i : Nat) (rs : List PortRequest),
      (allocatePorts a s n minP maxP idx str i reqs).2 = Except.ok rs →
      rs.Pairwise (fun x y => ¬(x.hostPort = y.hostPort ∧ x.protocol = y.protocol)) := by
  intro reqs
  induction reqs with
  | nil =>
    intro a i rs h
    injection h with h'
    subst h'
    exact List.Pairwise.nil
  | cons req rest ih =>
    intro a i rs h
    cases hd : dispatchPolicy a s n minP maxP idx str i req (effProto req.protocol) with
    | error e =>
      rw [allocatePorts_cons_error a s n minP maxP idx str i req rest e hd] at h
      cases h
    | ok port =>
      cases hu : isPortInUse a n (effProto req.protocol) port with
      | true =>
        rw [allocatePorts_cons_conflict a s n minP maxP idx str i req rest port hd hu] at h
        cases h
      | false =>
        rw [allocatePorts_cons_free a s n minP maxP idx str i req rest port hd hu] at h
        cases hrec : (allocatePorts (markUsed a n (effProto req.protocol) port) s n
            minP maxP idx str (i + 1) rest).2 with
        | error e => rw [hrec] at h; cases h
        | ok rs' =>
          rw [hrec] at h
          injection h with h'
          subst h'
          refine List.Pairwise.cons ?_ (ih _ (i + 1) rs' hrec)
          intro y hy hc
          have hfresh := allocatePorts_ok_fresh s n minP maxP idx str rest _ (i + 1)
            rs' hrec y hy
          rw [← hc.1, ← hc.2] at hfresh
          rw [markUsed_self a n (effProto req.protocol) port] at hfresh
          cases hfresh

/-- The per-request loop preserves `Name`, `ContainerPort` and `Policy`
of every request, and rewrites `Protocol` only by defaulting. -/
theorem allocatePorts_ok_frame (s : StickyMap) (n : String) (minP maxP idx str : Int) :
    ∀ (reqs : List PortRequest) (a : AllocMap) (i : Nat) (rs : List PortRequest),
      (allocatePorts a s n minP maxP idx str i reqs).2 = Except.ok rs →
      List.Forall₂ (fun r x => x.name = r.name ∧ x.containerPort = r.containerPort ∧
        x.policy = r.policy ∧ x.protocol = effProto r.protocol) reqs rs := by
  intro reqs
  induction reqs with
  | nil =>
    intro a i rs h
    injection h with h'
    subst h'
    exact List.Forall₂.nil
  | cons req rest ih =>
    intro a i rs h
    cases hd : dispatchPolicy a s n minP maxP idx str i req (effProto req.protocol) with
    | error e =>
      rw [allocatePorts_cons_error a s n minP maxP idx str i req rest e hd] at h
      cases h
    | ok port =>
      cases hu : isPortInUse a n (effProto req.protocol) port with
      | true =>
        rw [allocatePorts_cons_conflict a s n minP maxP idx str i req rest port hd hu] at h
        cases h
      | false =>
        rw [allocatePorts_cons_free a s n minP maxP idx str i req rest port hd hu] at h
        cases hrec : (allocatePorts (markUsed a n (effProto req.protocol) port) s n
            minP maxP idx str (i + 1) rest).2 with
        | error e => rw [hrec] at h; cases h
        | ok rs' =>
          rw [hrec] at h
          injection h with h'
          subst h'
          exact List.Forall₂.cons ⟨rfl, rfl, rfl, rfl⟩ (ih _ (i + 1) rs' hrec)

/-- When every request of a batch uses the Index policy and no `int32`
overflow occurs, a successful batch carries exactly the ports
`minPort + ordinal * stride + position`. -/
theorem allocatePorts_index_values (s : StickyMap) (n : String) (minP maxP idx str : Int) :
    ∀ (reqs : List PortRequest) (a : AllocMap) (i : Nat) (rs : List PortRequest),
      (∀ r ∈ reqs, r.policy = PolicyIndex) →
      0 ≤ minP → 0 ≤ idx * str →
      minP + idx * str + ((i : Int) + (reqs.length : Int)) < 2147483648 →
      (allocatePorts a s n minP maxP idx str i reqs).2 = Except.ok rs →
      rs.length = reqs.length ∧
        ∀ j (hj : j < rs.length),
          (rs.get ⟨j, hj⟩).hostPort = minP + idx * str + ((i : Int) + (j : Int)) := by
  intro reqs
  induction reqs with
  | nil =>
    intro a i rs _ _ _ _ h
    injection h with h'
    subst h'
    exact ⟨rfl, fun j hj => absurd hj (Nat.not_lt_zero j)⟩
  | cons req rest ih =>
    intro a i rs hpol h1 h2 h3 h
    have hreq : req.policy = PolicyIndex := hpol req (List.mem_cons_self req rest)
    simp only [List.length_cons] at h3
    cases hd : dispatchPolicy a s n minP maxP idx str i req (effProto req.protocol) with
    | error e =>
      rw [allocatePorts_cons_error a s n minP maxP idx str i req rest e hd] at h
      cases h
    | ok port =>
      have hport : port = minP + idx * str + (i : Int) := by
        rw [dispatch_index_eq a s n minP maxP idx str i req (effProto req.protocol) hreq] at hd
        split at hd
        · cases hd
        · injection hd with h'
          rw [← h']
          exact indexPort_eq h1 h2 (by push_cast at h3 ⊢; omega)
      cases hu : isPortInUse a n (effProto req.protocol) port with
      | true =>
        rw [allocatePorts_cons_conflict a s n minP maxP idx str i req rest port hd hu] at h
        cases h
      | false =>
        rw [allocatePorts_cons_free a s n minP maxP idx str i req rest port hd hu] at h
        cases hrec : (allocatePorts (markUsed a n (effProto req.protocol) port) s n
            minP maxP idx str (i + 1) rest).2 with
        | error e => rw [hrec] at h; cases h
        | ok rs' =>
          rw [hrec] at h
          injection h with h'
          subst h'
          obtain ⟨hlen, hvals⟩ := ih (markUsed a n (effProto req.protocol) port) (i + 1) rs'
            (fun r hr => hpol r (List.mem_cons_of_mem req hr)) h1 h2
            (by push_cast at h3 ⊢; omega) hrec
          refine ⟨by simp [hlen], ?_⟩
          intro j hj
          cases j with
          | zero => simpa using hport
          | succ j' =>
            have hj' : j' < rs'.length := by
              simp only [List.length_cons] at hj
              omega
            have hv := hvals j' hj'
            show (rs'.get ⟨j', hj'⟩).hostPort = _
            rw [hv]
            push_cast
            ring

/-- An all-Index batch whose stride window is free and inside the range
succeeds. -/
theorem allocatePorts_index_ok (s : StickyMap) (n : String) (minP maxP idx str : Int) :
    ∀ (reqs : List PortRequest) (a : AllocMap) (i : Nat),
      (∀ r ∈ reqs, r.policy = PolicyIndex) →
      0 ≤ minP → 0 ≤ idx * str →
      minP + idx * str + ((i : Int) + (reqs.length : Int)) < 2147483648 →
      minP + idx * str + ((i : Int) + (reqs.length : Int)) ≤ maxP + 1 →
      (∀ j (hj : j < reqs.length),
        a (mapKey n (effProto ((reqs.get ⟨j, hj⟩).protocol)))
            (minP + idx * str + ((i : Int) + (j : Int))) = false) →
      ∃ rs, (allocatePorts a s n minP maxP idx str i reqs).2 = Except.ok rs := by
  intro reqs
  induction reqs with
  | nil => intro a i _ _ _ _ _ _; exact ⟨[], rfl⟩
  | cons req rest ih =>
    intro a i hpol h1 h2 h3 hle hfree
    have hreq : req.policy = PolicyIndex := hpol req (List.mem_cons_self req rest)
    simp only [List.length_cons] at h3 hle
    have hd : dispatchPolicy a s n minP maxP idx str i req (effProto req.protocol)
        = Except.ok (minP + idx * str + (i : Int)) := by
      rw [dispatch_index_eq a s n minP maxP idx str i req (effProto req.protocol) hreq]
      rw [indexPort_eq h1 h2 (by push_cast at h3 ⊢; omega)]
      rw [if_neg (by push_cast at hle ⊢; omega)]
    have hu : isPortInUse a n (effProto req.protocol) (minP + idx * str + (i : Int))
        = false := by
      have h0 := hfree 0 (Nat.succ_pos rest.length)
      simpa using h0
    rw [allocatePorts_cons_free a s n minP maxP idx str i req rest _ hd hu]
    have hfree' : ∀ j (hj : j < rest.length),
        markUsed a n (effProto req.protocol) (minP + idx * str + (i : Int))
          (mapKey n (effProto ((rest.get ⟨j, hj⟩).protocol)))
          (minP + idx * str + (((i + 1 : Nat) : Int) + (j : Int))) = false := by
      intro j hj
      rw [markUsed_ne _ _ _ _ _ _ (by push_cast; omega)]
      have hfj := hfree (j + 1) (by simp only [List.length_cons]; omega)
      have harg : minP + idx * str + ((i : Int) + ((j + 1 : Nat) : Int))
          = minP + idx * str + (((i + 1 : Nat) : Int) + (j : Int)) := by
        push_cast
        ring
      rw [harg] at hfj
      exact hfj
    obtain ⟨rs', hrs'⟩ := ih (markUsed a n (effProto req.protocol)
        (minP + idx * str + (i : Int))) (i + 1)
      (fun r hr => hpol r (List.mem_cons_of_mem req hr)) h1 h2
      (by push_cast at h3 ⊢; omega) (by push_cast at hle ⊢; omega) hfree'
    refine ⟨({ req with
      hostPort := minP + idx * str + (i : Int),
      protocol := effProto req.protocol }) :: rs', ?_⟩
    rw [hrs']

/-- An all-Index batch whose last position falls past `maxPort` fails
with a RangeExceeded error, provided the in-range positions are free. -/
theorem allocatePorts_index_exceeds (s : StickyMap) (n : String) (minP maxP idx str : Int) :
    ∀ (reqs : List PortRequest) (a : AllocMap) (i : Nat),
      (∀ r ∈ reqs, r.policy = PolicyIndex) →
      0 ≤ minP → 0 ≤ idx * str →
      minP + idx * str + ((i : Int) + (reqs.length : Int)) < 2147483648 →
      0 < reqs.length →
      maxP < minP + idx * str + ((i : Int) + (reqs.length : Int)) - 1 →
      (∀ j (hj : j < reqs.length),
        minP + idx * str + ((i : Int) + (j : Int)) ≤ maxP →
        a (mapKey n (effProto ((reqs.get ⟨j, hj⟩).protocol)))
            (minP + idx * str + ((i : Int) + (j : Int))) = false) →
      ∃ p j', (allocatePorts a s n minP maxP idx str i reqs).2
        = Except.error (AllocError.rangeExceeded p j') := by
  intro reqs
  induction reqs with
  | nil => intro a i _ _ _ _ hlen _ _; cases hlen
  | cons req rest ih =>
    intro a i hpol h1 h2 h3 _ hex hfree
    have hreq : req.policy = PolicyIndex := hpol req (List.mem_cons_self req rest)
    simp only [List.length_cons] at h3 hex
    by_cases hc : maxP < minP + idx * str + (i : Int)
    · have hd : dispatchPolicy a s n minP maxP idx str i req (effProto req.protocol)
          = Except.error (AllocError.rangeExceeded (minP + idx * str + (i : Int)) i) := by
        rw [dispatch_index_eq a s n minP maxP idx str i req (effProto req.protocol) hreq]
        rw [indexPort_eq h1 h2 (by push_cast at h3 ⊢; omega)]
        rw [if_pos (by omega)]
      rw [allocatePorts_cons_error a s n minP maxP idx str i req rest _ hd]
      exact ⟨minP + idx * str + (i : Int), i, rfl⟩
    · have hd : dispatchPolicy a s n minP maxP idx str i req (effProto req.protocol)
          = Except.ok (minP + idx * str + (i : Int)) := by
        rw [dispatch_index_eq a s n minP maxP idx str i req (effProto req.protocol) hreq]
        rw [indexPort_eq h1 h2 (by push_cast at h3 ⊢; omega)]
        rw [if_neg (by omega)]
      have hu : isPortInUse a n (effProto req.protocol) (minP + idx * str + (i : Int))
          = false := by
        have h0 := hfree 0 (Nat.succ_pos rest.length) (by simpa using not_lt.mp hc)
        simpa using h0
      rw [allocatePorts_cons_free a s n minP maxP idx str i req rest _ hd hu]
      have hlen' : 0 < rest.length := by
        rcases Nat.eq_zero_or_pos rest.length with h0 | h0
        · rw [h0] at hex
          push_cast at hex
          omega
        · exact h0
      have hfree' : ∀ j (hj : j < rest.length),
          minP + idx * str + (((i + 1 : Nat) : Int) + (j : Int)) ≤ maxP →
          markUsed a n (effProto req.protocol) (minP + idx * str + (i : Int))
            (mapKey n (effProto ((rest.get ⟨j, hj⟩).protocol)))
            (minP + idx * str + (((i + 1 : Nat) : Int) + (j : Int))) = false := by
        intro j hj hjle
        rw [markUsed_ne _ _ _ _ _ _ (by push_cast; omega)]
        have harg : minP + idx * str + ((i : Int) + ((j + 1 : Nat) : Int))
            = minP + idx * str + (((i + 1 : Nat) : Int) + (j : Int)) := by
          push_cast
          ring
        have hfj := hfree (j + 1) (by simp only [List.length_cons]; omega)
          (by rw [harg]; exact hjle)
        rw [harg] at hfj
        exact hfj
      obtain ⟨p, j', hrec⟩ := ih (markUsed a n (effProto req.protocol)
          (minP + idx * str + (i : Int))) (i + 1)
        (fun r hr => hpol r (List.mem_cons_of_mem req hr)) h1 h2
        (by push_cast at h3 ⊢; omega) hlen' (by push_cast at hex ⊢; omega) hfree'
      refine ⟨p, j', ?_⟩
      rw [hrec]

theorem markUsed_congrAt (aL aR : AllocMap) (n pr : String) (po : Int) (k : String)
    (h : ∀ q, aL k q = aR k q) : ∀ q, markUsed aL n pr po k q = markUsed aR n pr po k q := by
  intro q
  unfold markUsed
  split
  · rfl
  · exact h q

theorem findFreePortAux_congr (aL aR : AllocMap) (key : String) (maxP : Int)
    (hag : ∀ q, aL key q = aR key q) :
    ∀ (fuel : Nat) (p0 : Int),
      findFreePortAux aL key maxP fuel p0 = findFreePortAux aR key maxP fuel p0 := by
  intro fuel
  induction fuel with
  | zero => intro p0; rfl
  | succ f ih =>
    intro p0
    unfold findFreePortAux
    rw [hag p0, ih (wrap32 (p0 + 1))]

theorem findFreePort_congr (aL aR : AllocMap) (n pr : String) (minP maxP : Int)
    (hag : ∀ q, aL (mapKey n pr) q = aR (mapKey n pr) q) :
    findFreePort aL n pr minP maxP = findFreePort aR n pr minP maxP := by
  unfold findFreePort
  rw [findFreePortAux_congr aL aR (mapKey n pr) maxP hag]

/-- The policy dispatch reads the conflict map only through the request
key, so two maps agreeing there dispatch identically. -/
theorem dispatch_congr (s : StickyMap) (n : String) (minP maxP idx str : Int)
    (i : Nat) (req : PortRequest) (pr : String) (aL aR : AllocMap)
    (hag : ∀ q, aL (mapKey n pr) q = aR (mapKey n pr) q) :
    dispatchPolicy aL s n minP maxP idx str i req pr
      = dispatchPolicy aR s n minP maxP idx str i req pr := by
  unfold dispatchPolicy
  by_cases h1 : req.policy = PolicyStatic
  · rw [if_pos h1, if_pos h1]
  · rw [if_neg h1, if_neg h1]
    by_cases h2 : req.policy = PolicyPassthrough
    · rw [if_pos h2, if_pos h2]
    · rw [if_neg h2, if_neg h2]
      by_cases h3 : req.policy = PolicyIndex
      · rw [if_pos h3, if_pos h3]
      · rw [if_neg h3, if_neg h3]
        by_cases h4 : req.policy = PolicyDynamic
        · rw [if_pos h4, if_pos h4]
          have hff : findFreePort aL n pr minP maxP = findFreePort aR n pr minP maxP :=
            findFreePort_congr aL aR n pr minP maxP hag
          cases hsn : s req.name with
          | none => exact hff
          | some pp =>
            show (if isPortInUse aL n pr pp = true then findFreePort aL n pr minP maxP
                else Except.ok pp)
              = (if isPortInUse aR n pr pp = true then findFreePort aR n pr minP maxP
                else Except.ok pp)
            rw [show isPortInUse aL n pr pp = isPortInUse aR n pr pp from hag pp, hff]
        · rw [if_neg h4, if_neg h4]

/-- The batch loop reads and writes the conflict map only through the
target node's TCP and UDP keys when every request protocol defaults to
TCP or UDP, so its outcome only depends on those two buckets. -/
theorem allocatePorts_congr (s : StickyMap) (n : String) (minP maxP idx str : Int) :
    ∀ (reqs : List PortRequest) (aL aR : AllocMap) (i : Nat),
      (∀ r ∈ reqs, effProto r.protocol = "TCP" ∨ effProto r.protocol = "UDP") →
      (∀ q, aL (mapKey n "TCP") q = aR (mapKey n "TCP") q) →
      (∀ q, aL (mapKey n "UDP") q = aR (mapKey n "UDP") q) →
      (allocatePorts aL s n minP maxP idx str i reqs).2
        = (allocatePorts aR s n minP maxP idx str i reqs).2 := by
  intro reqs
  induction reqs with
  | nil => intro aL aR i _ _ _; rfl
  | cons req rest ih =>
    intro aL aR i hproto hT hU
    have hagpr : ∀ q, aL (mapKey n (effProto req.protocol)) q
        = aR (mapKey n (effProto req.protocol)) q := by
      rcases hproto req (List.mem_cons_self req rest) with h | h
      · rw [h]; exact hT
      · rw [h]; exact hU
    have hd : dispatchPolicy aL s n minP maxP idx str i req (effProto req.protocol)
        = dispatchPolicy aR s n minP maxP idx str i req (effProto req.protocol) :=
      dispatch_congr s n minP maxP idx str i req (effProto req.protocol) aL aR hagpr
    cases hdR : dispatchPolicy aR s n minP maxP idx str i req (effProto req.protocol) with
    | error e =>
      rw [allocatePorts_cons_error aL s n minP maxP idx str i req rest e (hd.trans hdR),
        allocatePorts_cons_error aR s n minP maxP idx str i req rest e hdR]
    | ok port =>
      have hiu : isPortInUse aL n (effProto req.protocol) port
          = isPortInUse aR n (effProto req.protocol) port := hagpr port
      cases huR : isPortInUse aR n (effProto req.protocol) port with
      | true =>
        rw [allocatePorts_cons_conflict aL s n minP maxP idx str i req rest port
          (hd.trans hdR) (hiu.trans huR),
          allocatePorts_cons_conflict aR s n minP maxP idx str i req rest port hdR huR]
      | false =>
        rw [allocatePorts_cons_free aL s n minP maxP idx str i req rest port
          (hd.trans hdR) (hiu.trans huR),
          allocatePorts_cons_free aR s n minP maxP idx str i req rest port hdR huR]
        have hrec := ih (markUsed aL n (effProto req.protocol) port)
          (markUsed aR n (effProto req.protocol) port) (i + 1)
          (fun r hr => hproto r (List.mem_cons_of_mem req hr))
          (markUsed_congrAt aL aR n (effProto req.protocol) port (mapKey n "TCP") hT)
          (markUsed_congrAt aL aR n (effProto req.protocol) port (mapKey n "UDP") hU)
        rw [hrec]

/-- The Dynamic policy reuses a free sticky port. -/
theorem allocatePorts_dynamic_sticky (a : AllocMap) (s : StickyMap) (n : String)
    (minP maxP idx str : Int) (i : Nat) (r : PortRequest) (portA : Int)
    (hp : r.policy = PolicyDynamic) (hs : s r.name = some portA)
    (hfree : isPortInUse a n (effProto r.protocol) portA = false) :
    (allocatePorts a s n minP maxP idx str i [r]).2
      = Except.ok [{ r with hostPort := portA, protocol := effProto r.protocol }] := by
  have hd : dispatchPolicy a s n minP maxP idx str i r (effProto r.protocol)
      = Except.ok portA := by
    rw [dispatch_dynamic_eq a s n minP maxP idx str i r (effProto r.protocol) hp]
    simp only [hs]
    rw [if_neg (by simp [hfree])]
  rw [allocatePorts_cons_free a s n minP maxP idx str i r [] portA hd hfree]
  rfl

/-- The Dynamic policy with no usable sticky entry is exactly the
ascending scan. -/
theorem dispatch_dynamic_scan (a : AllocMap) (s : StickyMap) (n : String)
    (minP maxP idx str : Int) (i : Nat) (r : PortRequest) (pr : String)
    (hp : r.policy = PolicyDynamic)
    (hs : s r.name = none ∨ ∃ pp, s r.name = some pp ∧ isPortInUse a n pr pp = true) :
    dispatchPolicy a s n minP maxP idx str i r pr = findFreePort a n pr minP maxP := by
  rw [dispatch_dynamic_eq a s n minP maxP idx str i r pr hp]
  rcases hs with h | ⟨pp, h, hiu⟩
  · simp only [h]
  · simp only [h]
    rw [if_pos hiu]

/-- Arithmetic core of stride non-overlap: two distinct ordinals with
window positions below the stride can never produce the same port. -/
theorem stride_windows_disjoint {o1 o2 str j1 j2 : Int}
    (hj1 : 0 ≤ j1) (hb1 : j1 < str) (hj2 : 0 ≤ j2) (hb2 : j2 < str)
    (hne : o1 ≠ o2) : o1 * str + j1 ≠ o2 * str + j2 := by
  intro he
  have hsub : (o2 - o1) * str = j1 - j2 := by ring_nf; linarith [he]
  rcases lt_or_gt_of_ne hne with h | h
  · have h1s : (1 : Int) * str ≤ (o2 - o1) * str :=
      mul_le_mul_of_nonneg_right (by omega) (by omega)
    rw [one_mul] at h1s
    omega
  · have h1s : (1 : Int) * str ≤ (o1 - o2) * str :=
      mul_le_mul_of_nonneg_right (by omega) (by omega)
    rw [one_mul] at h1s
    have hsub' : (o1 - o2) * str = j2 - j1 := by ring_nf; linarith [he]
    omega

/-- C1: for every successful Allocate call, the conflict map at the
moment the call returns contains every port assigned during the call
(under the request's defaulted protocol on the target host), and
consequently the (hostPort, protocol) pairs assigned to the requests of
one batch are pairwise distinct. -/
theorem c1_conflict_map_contains_batch (a0 : AllocMap) (pods : List Pod) (pod : Pod)
    (reqs : List PortRequest) (minP maxP idx str : Int) (rs : List PortRequest)
    (h : (Allocate a0 pods pod reqs minP maxP idx str).2 = Except.ok rs) :
    (∀ x ∈ rs, isPortInUse (Allocate a0 pods pod reqs minP maxP idx str).1
        (effectiveNode pod) x.protocol x.hostPort = true) ∧
    rs.Pairwise (fun x y => ¬(x.hostPort = y.hostPort ∧ x.protocol = y.protocol)) := by
  unfold Allocate at h ⊢
  exact ⟨fun x hx => allocatePorts_ok_marked _ _ minP maxP idx str reqs _ 0 rs h x hx,
    allocatePorts_ok_pairwise _ _ minP maxP idx str reqs _ 0 rs h⟩

set_option maxRecDepth 10000 in
/-- Witness for C1 at a concrete two-request Dynamic batch on an empty
cluster: both assigned ports are recorded in the final conflict map and
the two (port, protocol) pairs differ. -/
theorem c1_witness :
    (∀ x ∈ [{ exampleDynReq with hostPort := 7000, protocol := "TCP" },
        { exampleDynReq2 with hostPort := 7001, protocol := "TCP" }],
      isPortInUse (Allocate emptyAlloc [] examplePod [exampleDynReq, exampleDynReq2]
          7000 7010 0 10).1
        (effectiveNode examplePod) x.protocol x.hostPort = true) ∧
    List.Pairwise (fun x y => ¬(x.hostPort = y.hostPort ∧ x.protocol = y.protocol))
      [{ exampleDynReq with hostPort := 7000, protocol := "TCP" },
        { exampleDynReq2 with hostPort := 7001, protocol := "TCP" }] :=
  c1_conflict_map_contains_batch emptyAlloc [] examplePod
    [exampleDynReq, exampleDynReq2] 7000 7010 0 10
    [{ exampleDynReq with hostPort := 7000, protocol := "TCP" },
      { exampleDynReq2 with hostPort := 7001, protocol := "TCP" }] rfl

/-- C8: the Static policy uses the declared host port verbatim, and a
Static request with a zero (unset) declared host port fails with the
InvalidRequest error of the static policy. -/
theorem c8_static_verbatim (a0 : AllocMap) (pods : List Pod) (pod : Pod)
    (req : PortRequest) (rest : List PortRequest) (minP maxP idx str : Int)
    (hp : req.policy = PolicyStatic) :
    (req.hostPort = 0 →
      (Allocate a0 pods pod (req :: rest) minP maxP idx str).2
        = Except.error AllocError.staticHostPortMissing) ∧
    (req.hostPort ≠ 0 →
      isPortInUse (syncNodeState a0 pods pod.name (effectiveNode pod)).1
        (effectiveNode pod) (effProto req.protocol) req.hostPort = false →
      (Allocate a0 pods pod [req] minP maxP idx str).2
        = Except.ok [{ req with protocol := effProto req.protocol }]) := by
  constructor
  · intro h0
    unfold Allocate
    have hd : dispatchPolicy (syncNodeState a0 pods pod.name (effectiveNode pod)).1
        (syncNodeState a0 pods pod.name (effectiveNode pod)).2 (effectiveNode pod)
        minP maxP idx str 0 req (effProto req.protocol)
        = Except.error AllocError.staticHostPortMissing := by
      rw [dispatch_static_eq _ _ _ minP maxP idx str 0 req (effProto req.protocol) hp]
      rw [if_pos h0]
    rw [allocatePorts_cons_error _ _ _ minP maxP idx str 0 req rest _ hd]
  · intro h0 hfree
    unfold Allocate
    have hd : dispatchPolicy (syncNodeState a0 pods pod.name (effectiveNode pod)).1
        (syncNodeState a0 pods pod.name (effectiveNode pod)).2 (effectiveNode pod)
        minP maxP idx str 0 req (effProto req.protocol)
        = Except.ok req.hostPort := by
      rw [dispatch_static_eq _ _ _ minP maxP idx str 0 req (effProto req.protocol) hp]
      rw [if_neg h0]
    rw [allocatePorts_cons_free _ _ _ minP maxP idx str 0 req [] req.hostPort hd hfree]
    rfl

set_option maxRecDepth 10000 in
/-- Witness for C8: a Static request with declared port 0 is rejected,
and a Static request for free port 7005 receives exactly 7005. -/
theorem c8_witness :
    (Allocate emptyAlloc [] examplePod [exampleStaticReq 0] 7000 7010 0 10).2
      = Except.error AllocError.staticHostPortMissing ∧
    (Allocate emptyAlloc [] examplePod [exampleStaticReq 7005] 7000 7010 0 10).2
      = Except.ok [{ exampleStaticReq 7005 with protocol := "TCP" }] :=
  ⟨(c8_static_verbatim emptyAlloc [] examplePod (exampleStaticReq 0) []
      7000 7010 0 10 rfl).1 rfl,
    (c8_static_verbatim emptyAlloc [] examplePod (exampleStaticReq 7005) []
      7000 7010 0 10 rfl).2 (by decide) rfl⟩

set_option maxRecDepth 10000 in
/-- C9: the Dynamic sticky-reuse path does not restrict the reused port
to the configured range: with a terminating same-name pod whose
recorded assignment names port 9999 and a range of [7000, 7010], the
call succeeds and returns 9999, strictly above maxPort. -/
theorem c9_sticky_escapes_range :
    (Allocate emptyAlloc [exampleOldPod] examplePod [exampleDynReq] 7000 7010 0 10).2
      = Except.ok [{ exampleDynReq with hostPort := 9999, protocol := "TCP" }] ∧
    (7010 : Int) < 9999 :=
  ⟨rfl, by omega⟩

/-- C10: a successful Allocate call preserves each request's Name,
ContainerPort and Policy; only HostPort is rewritten, and Protocol is
changed only by defaulting an unset protocol to TCP. -/
theorem c10_frame_fields (a0 : AllocMap) (pods : List Pod) (pod : Pod)
    (reqs : List PortRequest) (minP maxP idx str : Int) (rs : List PortRequest)
    (h : (Allocate a0 pods pod reqs minP maxP idx str).2 = Except.ok rs) :
    List.Forall₂ (fun r x => x.name = r.name ∧ x.containerPort = r.containerPort ∧
      x.policy = r.policy ∧ x.protocol = effProto r.protocol) reqs rs := by
  unfold Allocate at h
  exact allocatePorts_ok_frame _ _ minP maxP idx str reqs _ 0 rs h

set_option maxRecDepth 10000 in
/-- Witness for C10 at a mixed Static/Passthrough/Dynamic batch. -/
theorem c10_witness :
    List.Forall₂ (fun r x => x.name = r.name ∧ x.containerPort = r.containerPort ∧
      x.policy = r.policy ∧ x.protocol = effProto r.protocol)
      [exampleStaticReq 7008, examplePassReq, exampleDynReq]
      [{ exampleStaticReq 7008 with hostPort := 7008, protocol := "TCP" },
        { examplePassReq with hostPort := 7000, protocol := "TCP" },
        { exampleDynReq with hostPort := 7001, protocol := "TCP" }] :=
  c10_frame_fields emptyAlloc [] examplePod
    [exampleStaticReq 7008, examplePassReq, exampleDynReq] 7000 7010 0 10
    [{ exampleStaticReq 7008 with hostPort := 7008, protocol := "TCP" },
      { examplePassReq with hostPort := 7000, protocol := "TCP" },
      { exampleDynReq with hostPort := 7001, protocol := "TCP" }] rfl

/-- C2: for fixed (minPort, stride, ordinal), an all-Index batch whose
stride window does not collide with any declared cluster port receives
exactly `minPort + ordinal * stride + i` for the i-th request whenever
the window stays within the range, and fails with a RangeExceeded error
when a computed value exceeds maxPort. -/
theorem c2_index_deterministic (a0 : AllocMap) (pods : List Pod) (pod : Pod)
    (reqs : List PortRequest) (minP maxP idx str : Int)
    (hpol : ∀ r ∈ reqs, r.policy = PolicyIndex)
    (hproto : ∀ r ∈ reqs, r.protocol = "" ∨ r.protocol = "TCP" ∨ r.protocol = "UDP")
    (h1 : 0 ≤ minP) (h2 : 0 ≤ idx * str)
    (h3 : minP + idx * str + (reqs.length : Int) < 2147483648)
    (hclean : ∀ p ∈ pods, ∀ c ∈ p.containers, ∀ e ∈ c.ports,
      ¬(minP + idx * str ≤ e.hostPort ∧
        e.hostPort < minP + idx * str + (reqs.length : Int))) :
    (minP + idx * str + (reqs.length : Int) ≤ maxP + 1 →
      ∃ rs, (Allocate a0 pods pod reqs minP maxP idx str).2 = Except.ok rs ∧
        rs.length = reqs.length ∧
        ∀ j (hj : j < rs.length),
          (rs.get ⟨j, hj⟩).hostPort = minP + idx * str + (j : Int)) ∧
    (0 < reqs.length → maxP < minP + idx * str + (reqs.length : Int) - 1 →
      ∃ p j', (Allocate a0 pods pod reqs minP maxP idx str).2
        = Except.error (AllocError.rangeExceeded p j')) := by
  have hfree : ∀ j (hj : j < reqs.length),
      (syncNodeState a0 pods pod.name (effectiveNode pod)).1
        (mapKey (effectiveNode pod) (effProto ((reqs.get ⟨j, hj⟩).protocol)))
        (minP + idx * str + (((0 : Nat) : Int) + (j : Int))) = false := by
    intro j hj
    have hpr : effProto ((reqs.get ⟨j, hj⟩).protocol) = "TCP"
        ∨ effProto ((reqs.get ⟨j, hj⟩).protocol) = "UDP" := by
      rcases hproto _ (reqs.get_mem j hj) with h | h | h
      · left; rw [h]; rfl
      · left; rw [h]; rfl
      · right; rw [h]; rfl
    cases hval : (syncNodeState a0 pods pod.name (effectiveNode pod)).1
        (mapKey (effectiveNode pod) (effProto ((reqs.get ⟨j, hj⟩).protocol)))
        (minP + idx * str + (((0 : Nat) : Int) + (j : Int))) with
    | false => rfl
    | true =>
      exfalso
      obtain ⟨p, hp, c, hc, e, he, hne, heq⟩ :=
        sync_fst_true_elim a0 pods pod.name (effectiveNode pod) _ _ hpr hval
      refine hclean p hp c hc e he ⟨?_, ?_⟩
      · rw [heq]; push_cast; omega
      · rw [heq]; push_cast; omega
  constructor
  · intro hle
    unfold Allocate
    obtain ⟨rs, hrs⟩ := allocatePorts_index_ok
      (syncNodeState a0 pods pod.name (effectiveNode pod)).2 (effectiveNode pod)
      minP maxP idx str reqs
      (syncNodeState a0 pods pod.name (effectiveNode pod)).1 0 hpol h1 h2
      (by push_cast at h3 ⊢; omega) (by push_cast at hle ⊢; omega) hfree
    obtain ⟨hlen, hvals⟩ := allocatePorts_index_values
      (syncNodeState a0 pods pod.name (effectiveNode pod)).2 (effectiveNode pod)
      minP maxP idx str reqs
      (syncNodeState a0 pods pod.name (effectiveNode pod)).1 0 rs hpol h1 h2
      (by push_cast at h3 ⊢; omega) hrs
    refine ⟨rs, hrs, hlen, fun j hj => ?_⟩
    rw [hvals j hj]
    push_cast
    ring
  · intro hpos hex
    unfold Allocate
    exact allocatePorts_index_exceeds
      (syncNodeState a0 pods pod.name (effectiveNode pod)).2 (effectiveNode pod)
      minP maxP idx str reqs
      (syncNodeState a0 pods pod.name (effectiveNode pod)).1 0 hpol h1 h2
      (by push_cast at h3 ⊢; omega) hpos (by push_cast at hex ⊢; omega)
      (fun j hj _ => hfree j hj)

/-- Witness for C2 at a concrete two-request Index batch with
minPort 7000, maxPort 8000, ordinal 1, stride 100 on an empty cluster. -/
theorem c2_witness :
    ((7000 : Int) + 1 * 100 + (([exampleIdxReq "a", exampleIdxReq "b"].length : Nat) : Int)
        ≤ 8000 + 1 →
      ∃ rs, (Allocate emptyAlloc [] examplePod [exampleIdxReq "a", exampleIdxReq "b"]
          7000 8000 1 100).2 = Except.ok rs ∧
        rs.length = [exampleIdxReq "a", exampleIdxReq "b"].length ∧
        ∀ j (hj : j < rs.length),
          (rs.get ⟨j, hj⟩).hostPort = 7000 + 1 * 100 + (j : Int)) ∧
    (0 < [exampleIdxReq "a", exampleIdxReq "b"].length →
      (8000 : Int) < 7000 + 1 * 100
          + (([exampleIdxReq "a", exampleIdxReq "b"].length : Nat) : Int) - 1 →
      ∃ p j', (Allocate emptyAlloc [] examplePod [exampleIdxReq "a", exampleIdxReq "b"]
          7000 8000 1 100).2 = Except.error (AllocError.rangeExceeded p j')) :=
  c2_index_deterministic emptyAlloc [] examplePod
    [exampleIdxReq "a", exampleIdxReq "b"] 7000 8000 1 100
    (by decide) (by decide) (by decide) (by decide) (by decide)
    (fun p hp => absurd hp (List.not_mem_nil p))

/-- C3: a replacement instance with the same name as a terminating pod
that recorded a prior assignment for request name `p` receives that
recorded port under the Dynamic policy, and the terminating same-name
pod's declared ports are not added to the conflict map. -/
theorem c3_sticky_preservation (a0 : AllocMap) (others : List Pod) (old : Pod)
    (pod : Pod) (r : PortRequest) (portA : Int) (minP maxP idx str : Int)
    (hname : old.name = pod.name)
    (hterm : old.terminating = true)
    (hnode : effectiveNode pod = "pending" ∨ old.nodeName = effectiveNode pod)
    (hothers : ∀ q ∈ others, q.name ≠ pod.name)
    (hrecd : extractSticky emptySticky old.annotations r.name = some portA)
    (hp : r.policy = PolicyDynamic)
    (hfree : isPortInUse (syncNodeState a0 (others ++ [old]) pod.name
        (effectiveNode pod)).1 (effectiveNode pod) (effProto r.protocol) portA = false) :
    (Allocate a0 (others ++ [old]) pod [r] minP maxP idx str).2
        = Except.ok [{ r with hostPort := portA, protocol := effProto r.protocol }] ∧
    (syncNodeState a0 (others ++ [old]) pod.name (effectiveNode pod)).1
        = (syncNodeState a0 others pod.name (effectiveNode pod)).1 := by
  have hsticky : (syncNodeState a0 (others ++ [old]) pod.name (effectiveNode pod)).2
      r.name = some portA := by
    rw [sync_snd_append_old a0 others old pod.name (effectiveNode pod) hname hnode hothers]
    exact hrecd
  constructor
  · unfold Allocate
    exact allocatePorts_dynamic_sticky _ _ _ minP maxP idx str 0 r portA hp hsticky hfree
  · exact sync_fst_append_terminating a0 others old pod.name (effectiveNode pod) hname hterm

set_option maxRecDepth 10000 in
/-- Witness for C3: the terminating pod `app-0` recorded port 9999 for
request `web`; its replacement's Dynamic request `web` receives 9999. -/
theorem c3_witness :
    (Allocate emptyAlloc ([] ++ [exampleOldPod]) examplePod [exampleDynReq]
        7000 7010 0 10).2
      = Except.ok [{ exampleDynReq with hostPort := 9999, protocol := "TCP" }] ∧
    (syncNodeState emptyAlloc ([] ++ [exampleOldPod]) examplePod.name
        (effectiveNode examplePod)).1
      = (syncNodeState emptyAlloc [] examplePod.name (effectiveNode examplePod)).1 :=
  c3_sticky_preservation emptyAlloc [] exampleOldPod examplePod exampleDynReq 9999
    7000 7010 0 10 rfl rfl (Or.inr rfl)
    (fun q hq => absurd hq (List.not_mem_nil q)) rfl rfl rfl

/-- C5: two all-Index batches for distinct ordinals, with stride at
least each batch size, receive disjoint sets of host ports. -/
theorem c5_stride_non_overlap (a01 a02 : AllocMap) (pods1 pods2 : List Pod)
    (pod1 pod2 : Pod) (reqs1 reqs2 : List PortRequest)
    (minP maxP1 maxP2 o1 o2 str : Int) (rs1 rs2 : List PortRequest)
    (hpol1 : ∀ r ∈ reqs1, r.policy = PolicyIndex)
    (hpol2 : ∀ r ∈ reqs2, r.policy = PolicyIndex)
    (h1 : 0 ≤ minP) (ho1 : 0 ≤ o1) (ho2 : 0 ≤ o2) (hst : 0 ≤ str)
    (hb1 : minP + o1 * str + (reqs1.length : Int) < 2147483648)
    (hb2 : minP + o2 * str + (reqs2.length : Int) < 2147483648)
    (hk1 : (reqs1.length : Int) ≤ str) (hk2 : (reqs2.length : Int) ≤ str)
    (hne : o1 ≠ o2)
    (hok1 : (Allocate a01 pods1 pod1 reqs1 minP maxP1 o1 str).2 = Except.ok rs1)
    (hok2 : (Allocate a02 pods2 pod2 reqs2 minP maxP2 o2 str).2 = Except.ok rs2) :
    ∀ x ∈ rs1, ∀ y ∈ rs2, x.hostPort ≠ y.hostPort := by
  unfold Allocate at hok1 hok2
  obtain ⟨hlen1, hvals1⟩ := allocatePorts_index_values
    (syncNodeState a01 pods1 pod1.name (effectiveNode pod1)).2 (effectiveNode pod1)
    minP maxP1 o1 str reqs1
    (syncNodeState a01 pods1 pod1.name (effectiveNode pod1)).1 0 rs1 hpol1 h1
    (mul_nonneg ho1 hst) (by push_cast at hb1 ⊢; omega) hok1
  obtain ⟨hlen2, hvals2⟩ := allocatePorts_index_values
    (syncNodeState a02 pods2 pod2.name (effectiveNode pod2)).2 (effectiveNode pod2)
    minP maxP2 o2 str reqs2
    (syncNodeState a02 pods2 pod2.name (effectiveNode pod2)).1 0 rs2 hpol2 h1
    (mul_nonneg ho2 hst) (by push_cast at hb2 ⊢; omega) hok2
  intro x hx y hy
  obtain ⟨⟨j1, hj1⟩, hget1⟩ := List.mem_iff_get.mp hx
  obtain ⟨⟨j2, hj2⟩, hget2⟩ := List.mem_iff_get.mp hy
  have hv1 := hvals1 j1 hj1
  have hv2 := hvals2 j2 hj2
  rw [hget1] at hv1
  rw [hget2] at hv2
  intro heq
  have harith : o1 * str + (j1 : Int) = o2 * str + (j2 : Int) := by
    rw [hv1, hv2] at heq
    push_cast at heq
    linarith
  have hjb1 : (j1 : Int) < str := by
    rw [hlen1] at hj1
    omega
  have hjb2 : (j2 : Int) < str := by
    rw [hlen2] at hj2
    omega
  exact stride_windows_disjoint (Int.ofNat_nonneg j1) hjb1
    (Int.ofNat_nonneg j2) hjb2 hne harith

/-- Witness for C5: ordinal 0 and ordinal 1 batches of two Index
requests each with stride 100 receive {7000, 7001} and {7100, 7101};
in particular the first port of each batch differs. -/
theorem c5_witness :
    ({ exampleIdxReq "a" with hostPort := 7000, protocol := "TCP" } : PortRequest).hostPort
      ≠ ({ exampleIdxReq "a" with
          hostPort := 7100, protocol := "TCP" } : PortRequest).hostPort :=
  c5_stride_non_overlap emptyAlloc emptyAlloc [] [] examplePod examplePod
    [exampleIdxReq "a", exampleIdxReq "b"] [exampleIdxReq "a", exampleIdxReq "b"]
    7000 8000 8000 0 1 100
    [{ exampleIdxReq "a" with hostPort := 7000, protocol := "TCP" },
      { exampleIdxReq "b" with hostPort := 7001, protocol := "TCP" }]
    [{ exampleIdxReq "a" with hostPort := 7100, protocol := "TCP" },
      { exampleIdxReq "b" with hostPort := 7101, protocol := "TCP" }]
    (by decide) (by decide) (by decide) (by decide) (by decide) (by decide)
    (by decide) (by decide) (by decide) (by decide) (by decide) rfl rfl
    ({ exampleIdxReq "a" with hostPort := 7000, protocol := "TCP" })
    (by decide)
    ({ exampleIdxReq "a" with hostPort := 7100, protocol := "TCP" })
    (by decide)

/-- The outcome of an Allocate call does not depend on the conflict map
the allocator starts from, because the target node's TCP and UDP
buckets are rebuilt from the live pod scan before any decision. -/
theorem allocate_state_independent (aX aY : AllocMap) (pods : List Pod) (pod : Pod)
    (reqs : List PortRequest) (minP maxP idx str : Int)
    (hproto : ∀ r ∈ reqs, r.protocol = "" ∨ r.protocol = "TCP" ∨ r.protocol = "UDP") :
    (Allocate aX pods pod reqs minP maxP idx str).2
      = (Allocate aY pods pod reqs minP maxP idx str).2 := by
  unfold Allocate
  rw [sync_snd_congr aX aY pods pod.name (effectiveNode pod)]
  apply allocatePorts_congr
  · intro r hr
    rcases hproto r hr with h | h | h
    · left; rw [h]; rfl
    · left; rw [h]; rfl
    · right; rw [h]; rfl
  · exact fun q => sync_fst_congr aX aY pods pod.name (effectiveNode pod) "TCP"
      (Or.inl rfl) q
  · exact fun q => sync_fst_congr aX aY pods pod.name (effectiveNode pod) "UDP"
      (Or.inr rfl) q

/-- C4: when a batch fails, Allocate returns an error carrying no
assignments, and a subsequent call (its requests using TCP/UDP or unset
protocols, as the data model prescribes) behaves exactly as if the
failed batch had never run: starting it from the failed call's final
map or from the pre-batch map gives the same result, because the
conflict map for the target host is rebuilt from the cluster scan. -/
theorem c4_batch_atomic (a0 : AllocMap) (pods1 : List Pod) (pod1 : Pod)
    (reqs1 : List PortRequest) (m1 M1 i1 s1 : Int) (e : AllocError)
    (pods2 : List Pod) (pod2 : Pod) (reqs2 : List PortRequest) (m2 M2 i2 s2 : Int)
    (_hfail : (Allocate a0 pods1 pod1 reqs1 m1 M1 i1 s1).2 = Except.error e)
    (hproto : ∀ r ∈ reqs2, r.protocol = "" ∨ r.protocol = "TCP" ∨ r.protocol = "UDP") :
    (Allocate (Allocate a0 pods1 pod1 reqs1 m1 M1 i1 s1).1 pods2 pod2 reqs2
        m2 M2 i2 s2).2
      = (Allocate a0 pods2 pod2 reqs2 m2 M2 i2 s2).2 :=
  allocate_state_independent (Allocate a0 pods1 pod1 reqs1 m1 M1 i1 s1).1 a0
    pods2 pod2 reqs2 m2 M2 i2 s2 hproto

set_option maxRecDepth 10000 in
/-- Witness for C4: after a batch that failed on a zero Static port, a
Dynamic allocation on the same host returns the same result as from the
pre-batch state. -/
theorem c4_witness :
    (Allocate (Allocate emptyAlloc [] examplePod [exampleStaticReq 0]
        7000 7010 0 10).1 [] examplePod [exampleDynReq] 7000 7010 0 10).2
      = (Allocate emptyAlloc [] examplePod [exampleDynReq] 7000 7010 0 10).2 :=
  c4_batch_atomic emptyAlloc [] examplePod [exampleStaticReq 0] 7000 7010 0 10
    AllocError.staticHostPortMissing [] examplePod [exampleDynReq] 7000 7010 0 10
    rfl (by decide)

set_option maxRecDepth 10000 in
/-- Counterexample to C6 as stated: with minPort = maxPort = 2147483647
and that single port in use — so every port of the range is present in
the conflict map — the call does not fail with RangeExhausted.  The Go
`int32` loop counter can never exceed `maxPort = MaxInt32`, so instead
of exiting it wraps past MaxInt32 and the call returns port
-2147483648, below minPort; the same happens through a full Allocate
call on a cluster whose only pod occupies TCP 2147483647. -/
theorem c6_counterexample :
    findFreePort (markUsed emptyAlloc "n1" "TCP" 2147483647) "n1" "TCP"
        2147483647 2147483647 = Except.ok (-2147483648) ∧
    isPortInUse (markUsed emptyAlloc "n1" "TCP" 2147483647) "n1" "TCP"
        2147483647 = true ∧
    (Allocate emptyAlloc [exampleMaxPod] examplePod [exampleDynReq]
        2147483647 2147483647 0 10).2
      = Except.ok [{ exampleDynReq with hostPort := -2147483648, protocol := "TCP" }] ∧
    (-2147483648 : Int) < 2147483647 :=
  ⟨rfl, rfl, rfl, by omega⟩

set_option maxRecDepth 10000 in
/-- C6 (amended): when maxPort is below MaxInt32 — so the `int32` loop
counter cannot wrap — `findFreePort` returns the smallest port of
`[minPort, maxPort]` absent from the conflict map and fails with
RangeExhausted when every port of the range is used; the Dynamic policy
with no usable sticky entry is exactly this scan; concretely, with TCP
ports {7000, 7001} already declared on the host, a Dynamic request
receives 7002.  (At maxPort = MaxInt32 the counter wraps instead of
exiting and a fully used range yields a port below minPort, per the
counterexample.) -/
theorem c6_dynamic_first_free :
    (∀ (a : AllocMap) (n pr : String) (minP maxP p : Int),
      -2147483648 ≤ minP → maxP ≤ 2147483646 →
      findFreePort a n pr minP maxP = Except.ok p →
      minP ≤ p ∧ p ≤ maxP ∧ isPortInUse a n pr p = false ∧
        ∀ q, minP ≤ q → q < p → isPortInUse a n pr q = true) ∧
    (∀ (a : AllocMap) (n pr : String) (minP maxP : Int),
      -2147483648 ≤ minP → maxP ≤ 2147483646 →
      (∀ q, minP ≤ q → q ≤ maxP → isPortInUse a n pr q = true) →
      findFreePort a n pr minP maxP
        = Except.error (AllocError.exhausted pr minP maxP)) ∧
    (∀ (a : AllocMap) (s : StickyMap) (n : String) (minP maxP idx str : Int)
      (i : Nat) (r : PortRequest) (pr : String),
      r.policy = PolicyDynamic →
      (s r.name = none ∨ ∃ pp, s r.name = some pp ∧ isPortInUse a n pr pp = true) →
      dispatchPolicy a s n minP maxP idx str i r pr = findFreePort a n pr minP maxP) ∧
    (Allocate emptyAlloc [exampleBusyPod] examplePod [exampleDynReq] 7000 7010 0 10).2
      = Except.ok [{ exampleDynReq with hostPort := 7002, protocol := "TCP" }] := by
  refine ⟨?_, ?_, ?_, ?_⟩
  · intro a n pr minP maxP p hmin hmax h
    exact findFreePort_ok a n pr minP maxP p hmin hmax h
  · intro a n pr minP maxP hmin hmax h
    exact findFreePort_exhausted a n pr minP maxP hmin hmax h
  · intro a s n minP maxP idx str i r pr hp hs
    exact dispatch_dynamic_scan a s n minP maxP idx str i r pr hp hs
  · rfl

/-- Witness for C6: on a map with TCP 7000 and 7001 used, the scan from
7000 returns 7002 inside the range, and a fully used range [7000, 7001]
is reported exhausted. -/
theorem c6_witness :
    ((7000 : Int) ≤ 7002 ∧ (7002 : Int) ≤ 7010 ∧
      isPortInUse exampleBusyMap "n1" "TCP" 7002 = false) ∧
    findFreePort exampleBusyMap "n1" "TCP" 7000 7001
      = Except.error (AllocError.exhausted "TCP" 7000 7001) :=
  ⟨⟨(c6_dynamic_first_free.1 exampleBusyMap "n1" "TCP" 7000 7010 7002
      (by omega) (by omega) rfl).1,
    (c6_dynamic_first_free.1 exampleBusyMap "n1" "TCP" 7000 7010 7002
      (by omega) (by omega) rfl).2.1,
    (c6_dynamic_first_free.1 exampleBusyMap "n1" "TCP" 7000 7010 7002
      (by omega) (by omega) rfl).2.2.1⟩,
   c6_dynamic_first_free.2.1 exampleBusyMap "n1" "TCP" 7000 7001
     (by omega) (by omega)
     (fun q hq1 hq2 => by
       have hq : q = 7000 ∨ q = 7001 := by omega
       rcases hq with rfl | rfl
       · rfl
       · rfl)⟩

/-- C7: after policy dispatch, whatever port the policy computed, a
port already marked used for the target host and protocol makes the
call fail with PortConflict; in particular user-declared Static and
Passthrough collisions are caught here. -/
theorem c7_uniform_conflict_check :
    (∀ (a : AllocMap) (s : StickyMap) (n : String) (minP maxP idx str : Int)
      (i : Nat) (req : PortRequest) (rest : List PortRequest) (port : Int),
      dispatchPolicy a s n minP maxP idx str i req (effProto req.protocol)
        = Except.ok port →
      isPortInUse a n (effProto req.protocol) port = true →
      (allocatePorts a s n minP maxP idx str i (req :: rest)).2
        = Except.error (AllocError.portConflict port (effProto req.protocol))) ∧
    (∀ (a0 : AllocMap) (pods : List Pod) (pod : Pod) (req : PortRequest)
      (rest : List PortRequest) (minP maxP idx str : Int),
      req.policy = PolicyStatic → req.hostPort ≠ 0 →
      isPortInUse (syncNodeState a0 pods pod.name (effectiveNode pod)).1
        (effectiveNode pod) (effProto req.protocol) req.hostPort = true →
      (Allocate a0 pods pod (req :: rest) minP maxP idx str).2
        = Except.error (AllocError.portConflict req.hostPort (effProto req.protocol))) ∧
    (∀ (a0 : AllocMap) (pods : List Pod) (pod : Pod) (req : PortRequest)
      (rest : List PortRequest) (minP maxP idx str : Int),
      req.policy = PolicyPassthrough →
      isPortInUse (syncNodeState a0 pods pod.name (effectiveNode pod)).1
        (effectiveNode pod) (effProto req.protocol) req.containerPort = true →
      (Allocate a0 pods pod (req :: rest) minP maxP idx str).2
        = Except.error
            (AllocError.portConflict req.containerPort (effProto req.protocol))) := by
  refine ⟨?_, ?_, ?_⟩
  · intro a s n minP maxP idx str i req rest port hd hu
    rw [allocatePorts_cons_conflict a s n minP maxP idx str i req rest port hd hu]
  · intro a0 pods pod req rest minP maxP idx str hp h0 hu
    unfold Allocate
    have hd : dispatchPolicy (syncNodeState a0 pods pod.name (effectiveNode pod)).1
        (syncNodeState a0 pods pod.name (effectiveNode pod)).2 (effectiveNode pod)
        minP maxP idx str 0 req (effProto req.protocol) = Except.ok req.hostPort := by
      rw [dispatch_static_eq _ _ _ minP maxP idx str 0 req (effProto req.protocol) hp]
      rw [if_neg h0]
    rw [allocatePorts_cons_conflict _ _ _ minP maxP idx str 0 req rest _ hd hu]
  · intro a0 pods pod req rest minP maxP idx str hp hu
    unfold Allocate
    have hd : dispatchPolicy (syncNodeState a0 pods pod.name (effectiveNode pod)).1
        (syncNodeState a0 pods pod.name (effectiveNode pod)).2 (effectiveNode pod)
        minP maxP idx str 0 req (effProto req.protocol)
        = Except.ok req.containerPort :=
      dispatch_passthrough_eq _ _ _ minP maxP idx str 0 req (effProto req.protocol) hp
    rw [allocatePorts_cons_conflict _ _ _ minP maxP idx str 0 req rest _ hd hu]

set_option maxRecDepth 10000 in
/-- Witness for C7: a Static request declaring TCP port 7000, already
occupied by another pod on the node, is denied with PortConflict. -/
theorem c7_witness :
    (Allocate emptyAlloc [exampleBusyPod] examplePod [exampleStaticReq 7000]
        7000 7010 0 10).2
      = Except.error (AllocError.portConflict 7000 "TCP") :=
  c7_uniform_conflict_check.2.1 emptyAlloc [exampleBusyPod] examplePod
    (exampleStaticReq 7000) [] 7000 7010 0 10 rfl (by decide) rfl

end HostPort
